import Mathlib

/-!
Verification of the OpenScribe Ollama manager
(`openscribe-backend/src/ollama_manager.py`) against its natural-language
specification.  The Python module is shallowly embedded: every function the
claims touch is translated into an executable Lean definition over explicit
environment records (environment variables, filesystem predicates, HTTP
responses, per-candidate spawn outcomes), and the claims are settled as
theorems about those definitions.
-/

namespace OllamaManager

/-- Lower-case a string character by character, modelling Python's
`str.lower()` on the ASCII text this module handles. -/
def strLower (s : String) : String :=
  String.mk (s.data.map Char.toLower)

/-- Check whether `p` occurs as a contiguous run inside `t`, modelling
Python's `p in t` substring test on the underlying character lists. -/
def infixAt : List Char → List Char → Bool
  | [], p => p.isEmpty
  | c :: rest, p => p.isPrefixOf (c :: rest) || infixAt rest p

/-- Substring containment on strings, modelling Python's `pat in text`. -/
def strContains (text pat : String) : Bool :=
  infixAt text.data pat.data

theorem infixAt_iff (p t : List Char) : infixAt t p = true ↔ p <:+: t := by
  induction t with
  | nil =>
    simp [infixAt, List.isEmpty_iff, List.infix_nil]
  | cons c rest ih =>
    simp [infixAt, List.infix_cons_iff, List.isPrefixOf_iff_prefix, ih]

/-- The fixed crash-marker substrings of `_is_mlx_crash`
(ollama_manager.py lines 34-40). -/
def crashMarkers : List String :=
  ["nsrangeexception",
   "libmlx",
   "mlx_random_key",
   "metalallocator",
   "index 0 beyond bounds for empty array"]

/-- Embedding of `_is_mlx_crash` (ollama_manager.py lines 32-41): lower-case
the stderr text (`stderr or ""` tolerates a missing value) and report whether
any fixed marker occurs in it. -/
def isMlxCrash (stderr : Option String) : Bool :=
  crashMarkers.any (fun m => strContains (strLower (stderr.getD "")) m)

/-- Claim C9: `_is_mlx_crash` returns true iff the lowercased stderr text
contains at least one of the fixed crash markers; it returns false for text
containing none of them, and it tolerates empty or missing stderr. -/
theorem c9_crash_classifier :
    (∀ s : Option String,
      isMlxCrash s = true ↔
        ∃ m ∈ crashMarkers, m.data <:+: (strLower (s.getD "")).data)
    ∧ isMlxCrash none = false
    ∧ isMlxCrash (some "") = false
    ∧ isMlxCrash (some "random startup warning") = false
    ∧ isMlxCrash
        (some "uncaught NSRangeException: index 0 beyond bounds for empty array")
        = true := by
  refine ⟨?_, by decide, by decide, by decide, by decide⟩
  intro s
  simp [isMlxCrash, List.any_eq_true, strContains, infixAt_iff]

/-- One call to `is_ollama_running` observes at most two HTTP responses; a
response is `some status` for a completed GET and `none` when the request
raised (network error or timeout). -/
structure HttpEnv where
  versionStatus : Option Nat
  tagsStatus : Option Nat
deriving DecidableEq, Repr

/-- Embedding of `_http_get_ok` (ollama_manager.py lines 283-290): a raised
request yields `false`, a completed one yields whether the status is 2xx. -/
def httpGetOk (resp : Option Nat) : Bool :=
  match resp with
  | none => false
  | some st => decide (200 ≤ st) && decide (st < 300)

def ollamaVersionUrl : String := "http://127.0.0.1:11434/api/version"

def ollamaHealthUrl : String := "http://127.0.0.1:11434/api/tags"

/-- Embedding of `is_ollama_running` (ollama_manager.py lines 355-365):
version endpoint first, tags endpoint second, true when either is 2xx. -/
def isOllamaRunning (env : HttpEnv) : Bool :=
  httpGetOk env.versionStatus || httpGetOk env.tagsStatus

/-- The GET requests `is_ollama_running` issues, in order, each paired with
its timeout in seconds (both are 1.5 in the source); the second request is
issued only when the first did not succeed. -/
def isOllamaRunningCalls (env : HttpEnv) : List (String × Rat) :=
  if httpGetOk env.versionStatus then
    [(ollamaVersionUrl, (3 : Rat) / 2)]
  else
    [(ollamaVersionUrl, (3 : Rat) / 2), (ollamaHealthUrl, (3 : Rat) / 2)]

/-- Claim C8: `is_ollama_running` queries the version endpoint first and the
tags endpoint second, each with its own short timeout; it returns true iff
either GET succeeds with a 2xx status, and raised network or timeout errors
are treated as "not running" rather than propagated. -/
theorem c8_is_running :
    ∀ env : HttpEnv,
      (isOllamaRunning env = true ↔
        (∃ st, env.versionStatus = some st ∧ 200 ≤ st ∧ st < 300) ∨
        (∃ st, env.tagsStatus = some st ∧ 200 ≤ st ∧ st < 300))
      ∧ (isOllamaRunningCalls env).head? = some (ollamaVersionUrl, (3 : Rat) / 2)
      ∧ (httpGetOk env.versionStatus = false →
          isOllamaRunningCalls env =
            [(ollamaVersionUrl, (3 : Rat) / 2), (ollamaHealthUrl, (3 : Rat) / 2)])
      ∧ (env.versionStatus = none → env.tagsStatus = none →
          isOllamaRunning env = false) := by
  intro env
  refine ⟨?_, ?_, ?_, ?_⟩
  · cases hv : env.versionStatus with
    | none =>
      cases ht : env.tagsStatus with
      | none => simp [isOllamaRunning, httpGetOk, hv, ht]
      | some st => simp [isOllamaRunning, httpGetOk, hv, ht]
    | some st =>
      cases ht : env.tagsStatus with
      | none => simp [isOllamaRunning, httpGetOk, hv, ht]
      | some st2 => simp [isOllamaRunning, httpGetOk, hv, ht]
  · by_cases h : httpGetOk env.versionStatus <;> simp [isOllamaRunningCalls, h]
  · intro h; simp [isOllamaRunningCalls, h]
  · intro hv ht; simp [isOllamaRunning, httpGetOk, hv, ht]

/-- Witness for claim C8 at the concrete environment where both GETs raise:
the second endpoint is still queried and the result is false. -/
theorem c8_is_running_witness :
    isOllamaRunning ⟨none, none⟩ = false
    ∧ isOllamaRunningCalls ⟨none, none⟩ =
        [(ollamaVersionUrl, (3 : Rat) / 2), (ollamaHealthUrl, (3 : Rat) / 2)] :=
  ⟨(c8_is_running ⟨none, none⟩).2.2.2 rfl rfl,
   (c8_is_running ⟨none, none⟩).2.2.1 rfl⟩

/-- Environment observed by one call to `get_ollama_binary_candidates`
(ollama_manager.py lines 128-213).  Paths are plain strings (the literal text
`str(Path(...))`).  `whichOut` is the stripped stdout of a successful
`which ollama` call, `none` when the lookup fails or raises.  `pathExists`
and `pathExec` model `Path.exists` and `os.access(..., X_OK)`.
`selectedCache` is the `_selected_ollama_binary` process global and
`reportSelected` the `selected_binary` string of the persisted startup
report, `none` when absent or not a string. -/
structure LocEnv where
  overrideBinary : Option String
  bundledDir : Option String
  whichOut : Option String
  pathExists : String → Bool
  pathExec : String → Bool
  preferSystemEnv : Option String
  selectedCache : Option String
  reportSelected : Option String

/-- The override environment variable `OPENSCRIBE_OLLAMA_BINARY` counts only
when set to a non-empty string (Python truthiness of `os.getenv`). -/
def activeOverride (env : LocEnv) : Option String :=
  match env.overrideBinary with
  | none => none
  | some o => if o = "" then none else some o

/-- The candidate paths assembled before deduplication, in source order:
override, bundled primary, bundled fallback slot, PATH lookup, then the
three fixed system locations (ollama_manager.py lines 130-159). -/
def rawCandidates (env : LocEnv) : List String :=
  (activeOverride env).toList
  ++ (match env.bundledDir with
      | some d => [d ++ "/ollama", d ++ "/ollama-fallback"]
      | none => [])
  ++ env.whichOut.toList
  ++ ["/opt/homebrew/bin/ollama", "/usr/local/bin/ollama", "/usr/bin/ollama"]

/-- Embedding of the dedup-and-filter loop (ollama_manager.py lines 161-171):
skip a path whose literal string was already seen, record it as seen, and
keep it only when it exists and is executable. -/
def dedupFilter (env : LocEnv) (seen : List String) : List String → List String
  | [] => []
  | c :: rest =>
    if c ∈ seen then dedupFilter env seen rest
    else if env.pathExists c && env.pathExec c then
      c :: dedupFilter env (c :: seen) rest
    else dedupFilter env (c :: seen) rest

/-- The `OPENSCRIBE_PREFER_SYSTEM_OLLAMA` toggle: unset means true, otherwise
the lower-cased value must be one of "1", "true", "yes", "on"
(ollama_manager.py lines 178-184). -/
def preferSystemFlag (env : LocEnv) : Bool :=
  match env.preferSystemEnv with
  | none => true
  | some s => (["1", "true", "yes", "on"] : List String).contains (strLower s)

/-- A path counts as system-rooted unless a bundled directory is known and
the path starts with its literal text (ollama_manager.py lines 189-192). -/
def isSystemPath (env : LocEnv) (p : String) : Bool :=
  match env.bundledDir with
  | none => true
  | some d => !(d.data.isPrefixOf p.data)

/-- Partition system-first when the prefer-system flag is on and the list is
non-empty (ollama_manager.py lines 186-196). -/
def reorderSystemFirst (env : LocEnv) (l : List String) : List String :=
  if preferSystemFlag env && !l.isEmpty then
    l.filter (fun p => isSystemPath env p) ++ l.filter (fun p => !isSystemPath env p)
  else l

/-- The `selected_binary` recorded in the persisted report counts only when
it is a non-empty string (ollama_manager.py lines 202-205). -/
def reportPreferred (env : LocEnv) : Option String :=
  match env.reportSelected with
  | none => none
  | some s => if s = "" then none else some s

/-- The previously successful binary: the in-memory cache when set and still
existing, else the persisted report's entry (ollama_manager.py lines 198-205). -/
def preferredOf (env : LocEnv) : Option String :=
  match env.selectedCache with
  | some c => if env.pathExists c then some c else reportPreferred env
  | none => reportPreferred env

/-- Move the preferred path to position 0 when it is present in the list
(ollama_manager.py lines 207-211). -/
def bubblePreferred (env : LocEnv) (l : List String) : List String :=
  match preferredOf env with
  | none => l
  | some p => if p ∈ l then p :: l.erase p else l

/-- Embedding of `get_ollama_binary_candidates` (ollama_manager.py lines
128-213): assemble, dedup-and-filter, and — only when no override is
active — reorder system-first and bubble the preferred path to the front. -/
def getOllamaBinaryCandidates (env : LocEnv) : List String :=
  match activeOverride env with
  | some _ => dedupFilter env [] (rawCandidates env)
  | none => bubblePreferred env (reorderSystemFirst env (dedupFilter env [] (rawCandidates env)))

/-- Discovery step of `get_ollama_binary` when the cache cannot be used: the
first candidate, if any, becomes both the result and the new cache value
(ollama_manager.py lines 232-239). -/
def getOllamaBinaryFresh (env : LocEnv) (cache : Option String) :
    Option String × Option String :=
  match getOllamaBinaryCandidates env with
  | [] => (none, cache)
  | c :: _ => (some c, some c)

/-- Embedding of `get_ollama_binary` (ollama_manager.py lines 216-239),
returning the chosen binary together with the new value of the
`_selected_ollama_binary` cache. -/
def getOllamaBinary (env : LocEnv) (cache : Option String) :
    Option String × Option String :=
  match cache with
  | some c => if env.pathExists c then (some c, some c) else getOllamaBinaryFresh env cache
  | none => getOllamaBinaryFresh env cache

theorem dedupFilter_not_mem_seen (env : LocEnv) :
    ∀ l seen x, x ∈ dedupFilter env seen l → x ∉ seen := by
  intro l
  induction l with
  | nil => intro seen x hx; simp [dedupFilter] at hx
  | cons c rest ih =>
    intro seen x hx
    by_cases hc : c ∈ seen
    · simp only [dedupFilter, if_pos hc] at hx
      exact ih seen x hx
    · simp only [dedupFilter, if_neg hc] at hx
      by_cases hk : env.pathExists c && env.pathExec c
      · rw [if_pos hk] at hx
        rcases List.mem_cons.mp hx with h | h
        · subst h; exact hc
        · have := ih (c :: seen) x h
          intro hxs; exact this (List.mem_cons_of_mem c hxs)
      · rw [if_neg hk] at hx
        have := ih (c :: seen) x hx
        intro hxs; exact this (List.mem_cons_of_mem c hxs)

theorem dedupFilter_nodup (env : LocEnv) :
    ∀ l seen, (dedupFilter env seen l).Nodup := by
  intro l
  induction l with
  | nil => intro seen; simp [dedupFilter]
  | cons c rest ih =>
    intro seen
    by_cases hc : c ∈ seen
    · simp only [dedupFilter, if_pos hc]; exact ih seen
    · simp only [dedupFilter, if_neg hc]
      by_cases hk : env.pathExists c && env.pathExec c
      · rw [if_pos hk]
        refine List.nodup_cons.mpr ⟨?_, ih (c :: seen)⟩
        intro hmem
        exact dedupFilter_not_mem_seen env rest (c :: seen) c hmem (List.mem_cons_self c seen)
      · rw [if_neg hk]; exact ih (c :: seen)

theorem reorderSystemFirst_nodup (env : LocEnv) (l : List String)
    (h : l.Nodup) : (reorderSystemFirst env l).Nodup := by
  unfold reorderSystemFirst
  by_cases hc : preferSystemFlag env && !l.isEmpty
  · rw [if_pos hc]
    refine List.Nodup.append (h.filter _) (h.filter _) ?_
    intro x hx1 hx2
    have h1 := (List.mem_filter.mp hx1).2
    have h2 := (List.mem_filter.mp hx2).2
    simp at h2
    rw [h2] at h1
    exact Bool.false_ne_true h1
  · rw [if_neg hc]; exact h

theorem mem_reorderSystemFirst (env : LocEnv) (l : List String) (x : String) :
    x ∈ reorderSystemFirst env l ↔ x ∈ l := by
  unfold reorderSystemFirst
  by_cases hc : preferSystemFlag env && !l.isEmpty
  · rw [if_pos hc]
    constructor
    · intro hx
      rcases List.mem_append.mp hx with h | h
      · exact (List.mem_filter.mp h).1
      · exact (List.mem_filter.mp h).1
    · intro hx
      by_cases hs : isSystemPath env x
      · exact List.mem_append.mpr (Or.inl (List.mem_filter.mpr ⟨hx, hs⟩))
      · refine List.mem_append.mpr (Or.inr (List.mem_filter.mpr ⟨hx, ?_⟩))
        simp [hs]
  · rw [if_neg hc]

theorem bubblePreferred_nodup (env : LocEnv) (l : List String)
    (h : l.Nodup) : (bubblePreferred env l).Nodup := by
  unfold bubblePreferred
  cases hp : preferredOf env with
  | none => exact h
  | some p =>
    dsimp only
    by_cases hm : p ∈ l
    · rw [if_pos hm]
      refine List.nodup_cons.mpr ⟨?_, h.erase p⟩
      intro hmem
      exact ((h.mem_erase_iff.mp hmem).1) rfl
    · rw [if_neg hm]; exact h

/-- Claim C6 (amended): for every environment and filesystem configuration,
`get_ollama_binary_candidates` returns a list with no two entries whose
literal path strings are equal — deduplication is by literal string, not by
canonical path. -/
theorem c6_candidates_nodup (env : LocEnv) :
    (getOllamaBinaryCandidates env).Nodup := by
  unfold getOllamaBinaryCandidates
  cases ho : activeOverride env with
  | some o => exact dedupFilter_nodup env (rawCandidates env) []
  | none =>
    exact bubblePreferred_nodup env _
      (reorderSystemFirst_nodup env _ (dedupFilter_nodup env (rawCandidates env) []))

/-- A filesystem in which `/opt/homebrew/bin/ollama` is a symlink to
`/usr/local/bin/ollama`: path resolution sends both to the latter. -/
def resolveC6 : String → String :=
  fun p => if p = "/opt/homebrew/bin/ollama" then "/usr/local/bin/ollama" else p

/-- Concrete environment for the claim C6 counterexample: no override, no
bundle, no PATH hit, both homebrew and usr-local binaries present and
executable, nothing cached. -/
def envC6 : LocEnv :=
  { overrideBinary := none
    bundledDir := none
    whichOut := none
    pathExists := fun p =>
      p == "/opt/homebrew/bin/ollama" || p == "/usr/local/bin/ollama"
    pathExec := fun p =>
      p == "/opt/homebrew/bin/ollama" || p == "/usr/local/bin/ollama"
    preferSystemEnv := none
    selectedCache := none
    reportSelected := none }

/-- Counterexample to claim C6 as stated: with a symlinked install the
returned list holds two distinct literal paths whose canonical (resolved)
paths coincide, so deduplication is not by canonical path. -/
theorem c6_canonical_counterexample :
    getOllamaBinaryCandidates envC6 =
      ["/opt/homebrew/bin/ollama", "/usr/local/bin/ollama"]
    ∧ resolveC6 "/opt/homebrew/bin/ollama" = resolveC6 "/usr/local/bin/ollama"
    ∧ ("/opt/homebrew/bin/ollama" : String) ≠ "/usr/local/bin/ollama" := by
  refine ⟨by decide, by decide, by decide⟩

theorem dedupFilter_cons_nil (env : LocEnv) (c : String) (rest : List String)
    (he : env.pathExists c = true) (hx : env.pathExec c = true) :
    dedupFilter env [] (c :: rest) = c :: dedupFilter env [c] rest := by
  have hc : (env.pathExists c && env.pathExec c) = true := by simp [he, hx]
  show (if c ∈ ([] : List String) then dedupFilter env [] rest
        else if env.pathExists c && env.pathExec c then c :: dedupFilter env [c] rest
        else dedupFilter env [c] rest) = c :: dedupFilter env [c] rest
  rw [if_neg (List.not_mem_nil c), if_pos hc]

/-- Claim C2 (amended): when the override variable is set to a non-empty
path that exists and is executable, `get_ollama_binary_candidates` places the
override at position 0 and skips the preference reordering and the
preferred-binary bubbling; other discovered binaries may still follow it. -/
theorem c2_override_first (env : LocEnv) (o : String)
    (h : activeOverride env = some o)
    (he : env.pathExists o = true) (hx : env.pathExec o = true) :
    getOllamaBinaryCandidates env = dedupFilter env [] (rawCandidates env)
    ∧ (getOllamaBinaryCandidates env).head? = some o := by
  have hcand : getOllamaBinaryCandidates env = dedupFilter env [] (rawCandidates env) := by
    unfold getOllamaBinaryCandidates
    rw [h]
  refine ⟨hcand, ?_⟩
  have hraw : rawCandidates env =
      o :: ((match env.bundledDir with
             | some d => [d ++ "/ollama", d ++ "/ollama-fallback"]
             | none => [])
            ++ env.whichOut.toList
            ++ ["/opt/homebrew/bin/ollama", "/usr/local/bin/ollama", "/usr/bin/ollama"]) := by
    unfold rawCandidates
    rw [h]
    rfl
  rw [hcand, hraw, dedupFilter_cons_nil env o _ he hx]
  rfl

/-- Concrete environment for claim C2: override set to an existing
executable path while `/usr/bin/ollama` also exists and is executable. -/
def envC2 : LocEnv :=
  { overrideBinary := some "/tmp/override-ollama"
    bundledDir := none
    whichOut := none
    pathExists := fun p => p == "/tmp/override-ollama" || p == "/usr/bin/ollama"
    pathExec := fun p => p == "/tmp/override-ollama" || p == "/usr/bin/ollama"
    preferSystemEnv := none
    selectedCache := none
    reportSelected := none }

/-- Counterexample to claim C2 as stated: with the override set, the
returned list is not the singleton `[override]` — another installed binary
still appears after it. -/
theorem c2_override_counterexample :
    getOllamaBinaryCandidates envC2 = ["/tmp/override-ollama", "/usr/bin/ollama"]
    ∧ getOllamaBinaryCandidates envC2 ≠ ["/tmp/override-ollama"] :=
  ⟨by decide, by decide⟩

/-- Witness for the amended claim C2 at the concrete environment `envC2`. -/
theorem c2_override_first_witness :
    activeOverride envC2 = some "/tmp/override-ollama"
    ∧ (getOllamaBinaryCandidates envC2).head? = some "/tmp/override-ollama" :=
  ⟨by decide,
   (c2_override_first envC2 "/tmp/override-ollama" (by decide) (by decide) (by decide)).2⟩

/-- Claim C7: with no override configured, if a previously successful binary
is known (in-memory cache, else the persisted report's `selected_binary`)
and it appears in the returned candidate list, then it is at position 0,
regardless of the system-vs-bundled preference ordering. -/
theorem c7_preferred_first (env : LocEnv) (p : String)
    (h : activeOverride env = none) (hp : preferredOf env = some p)
    (hm : p ∈ getOllamaBinaryCandidates env) :
    (getOllamaBinaryCandidates env).head? = some p := by
  simp only [getOllamaBinaryCandidates, h, bubblePreferred, hp] at hm ⊢
  by_cases hin : p ∈ reorderSystemFirst env (dedupFilter env [] (rawCandidates env))
  · rw [if_pos hin]
    rfl
  · rw [if_neg hin] at hm
    exact absurd hm hin

/-- Concrete environment for claim C7: no override, two system binaries
present, and the in-memory cache pointing at the non-first one. -/
def envC7 : LocEnv :=
  { overrideBinary := none
    bundledDir := none
    whichOut := none
    pathExists := fun p => p == "/opt/homebrew/bin/ollama" || p == "/usr/local/bin/ollama"
    pathExec := fun p => p == "/opt/homebrew/bin/ollama" || p == "/usr/local/bin/ollama"
    preferSystemEnv := none
    selectedCache := some "/usr/local/bin/ollama"
    reportSelected := none }

/-- Witness for claim C7 at the concrete environment `envC7`: the cached
binary is moved in front of the otherwise-first homebrew path. -/
theorem c7_preferred_first_witness :
    preferredOf envC7 = some "/usr/local/bin/ollama"
    ∧ "/usr/local/bin/ollama" ∈ getOllamaBinaryCandidates envC7
    ∧ (getOllamaBinaryCandidates envC7).head? = some "/usr/local/bin/ollama" :=
  ⟨by decide, by decide,
   c7_preferred_first envC7 "/usr/local/bin/ollama" (by decide) (by decide) (by decide)⟩

/-- Outcome of the wait loop for one spawned candidate (ollama_manager.py
lines 452-496): the server became healthy, or the process exited early with
a return code and captured stderr tail, or it hung until the per-candidate
timeout and was terminated. -/
inductive SpawnOutcome where
  | ready : SpawnOutcome
  | exitedEarly : Int → String → SpawnOutcome
  | hung : SpawnOutcome
deriving DecidableEq, Repr

/-- One candidate binary as `start_ollama_server` observes it: its path, the
result of its probe invocation, and what happens after it is spawned. -/
structure CandSpec where
  name : String
  probeOk : Bool
  outcome : SpawnOutcome
deriving DecidableEq, Repr

/-- One entry of the report's `attempts` list, mirroring the keys the source
writes into the per-candidate dict (probe detail abstracted to its ok flag;
`spawned` mirrors the presence of the `pid` key). -/
structure Attempt where
  binary : String
  probeOk : Bool
  spawned : Bool := false
  returncode : Option Int := none
  stderrTail : Option String := none
  mlxCrash : Option Bool := none
  timedOut : Bool := false
deriving DecidableEq, Repr

/-- A startup report, mirroring the dict passed to `_set_startup_report`
(`errorMsg` models the `"error"` key). -/
structure Report where
  success : Bool
  alreadyRunning : Bool := false
  errorMsg : Option String := none
  selectedBinary : Option String := none
  waited : Option Bool := none
  attempts : Option (List Attempt) := none
  timestamp : Nat := 0
deriving DecidableEq, Repr

/-- Environment observed by one `start_ollama_server` call: the two health
checks (before and after taking the lock), whether the startup lock is
acquired within its 20 s budget, the candidate list, and the call's
timestamp.  The only raise site inside the function's `try` block is the
startup-lock timeout; `probe_ollama_binary` catches its own exceptions. -/
structure StartEnv where
  running0 : Bool
  lockOk : Bool
  runningAfterLock : Bool
  candidates : List CandSpec
  now : Nat
deriving DecidableEq, Repr

/-- Observable outcome of one `start_ollama_server` call: the returned
boolean, every report written by `_set_startup_report` during the call in
order, whether the startup lock was acquired, which candidates were spawned,
and every write to the `_selected_ollama_binary` cache paired with whether a
health check had succeeded against that candidate at the moment of the
write. -/
structure StartResult where
  ret : Bool
  reports : List Report
  lockAcquired : Bool
  spawned : List String
  cacheWrites : List (String × Bool)
deriving DecidableEq, Repr

/-- Result of the per-candidate loop. -/
structure LoopOut where
  ret : Bool
  report : Report
  spawned : List String
  cacheWrites : List (String × Bool)
deriving DecidableEq, Repr

def spawnAttempt (c : CandSpec) : Attempt :=
  { binary := c.name, probeOk := c.probeOk, spawned := true }

def probeFailAttempt (c : CandSpec) : Attempt :=
  { binary := c.name, probeOk := c.probeOk }

def exitAttempt (c : CandSpec) (rc : Int) (st : String) : Attempt :=
  { binary := c.name, probeOk := c.probeOk, spawned := true,
    returncode := some rc, stderrTail := some st,
    mlxCrash := some (isMlxCrash (some st)) }

def hungAttempt (c : CandSpec) : Attempt :=
  { binary := c.name, probeOk := c.probeOk, spawned := true, timedOut := true }

/-- Embedding of the candidate loop of `start_ollama_server`
(ollama_manager.py lines 414-505): skip a candidate whose probe fails; spawn
otherwise; with `wait=false` return success immediately after the spawn;
with `wait=true` return success when the health check succeeds, and fall
through to the next candidate on early exit or hang; exhausting the list
reports `startup_failed`. -/
def runCandidates (wait : Bool) (now : Nat) (acc : List Attempt)
    (spawnedAcc : List String) (cacheAcc : List (String × Bool)) :
    List CandSpec → LoopOut
  | [] =>
    { ret := false,
      report := { success := false, errorMsg := some "startup_failed",
                  attempts := some acc, timestamp := now },
      spawned := spawnedAcc, cacheWrites := cacheAcc }
  | c :: rest =>
    if c.probeOk then
      if wait then
        match c.outcome with
        | SpawnOutcome.ready =>
          { ret := true,
            report := { success := true, waited := some true,
                        selectedBinary := some c.name,
                        attempts := some (acc ++ [spawnAttempt c]), timestamp := now },
            spawned := spawnedAcc ++ [c.name],
            cacheWrites := cacheAcc ++ [(c.name, true)] }
        | SpawnOutcome.exitedEarly rc st =>
          runCandidates wait now (acc ++ [exitAttempt c rc st])
            (spawnedAcc ++ [c.name]) cacheAcc rest
        | SpawnOutcome.hung =>
          runCandidates wait now (acc ++ [hungAttempt c])
            (spawnedAcc ++ [c.name]) cacheAcc rest
      else
        { ret := true,
          report := { success := true, waited := some false,
                      selectedBinary := some c.name,
                      attempts := some (acc ++ [spawnAttempt c]), timestamp := now },
          spawned := spawnedAcc ++ [c.name],
          cacheWrites := cacheAcc ++ [(c.name, false)] }
    else
      runCandidates wait now (acc ++ [probeFailAttempt c]) spawnedAcc cacheAcc rest

/-- Embedding of the `with _with_startup_lock():` block of
`start_ollama_server` (ollama_manager.py lines 404-505), including the
`TimeoutError` that `_with_startup_lock` raises when the lock cannot be
acquired within its budget (lines 337-352). -/
def startLocked (env : StartEnv) (wait : Bool) : Except String StartResult :=
  if env.lockOk then
    if env.runningAfterLock then
      Except.ok
        { ret := true,
          reports := [{ success := true, alreadyRunning := true, timestamp := env.now }],
          lockAcquired := true, spawned := [], cacheWrites := [] }
    else
      let lo := runCandidates wait env.now [] [] [] env.candidates
      Except.ok
        { ret := lo.ret, reports := [lo.report], lockAcquired := true,
          spawned := lo.spawned, cacheWrites := lo.cacheWrites }
  else
    Except.error "Timed out acquiring Ollama startup lock"

/-- Embedding of `start_ollama_server` (ollama_manager.py lines 368-515):
fast path when already running, `binary_not_found` when the candidate list
is empty (both before the lock), then the locked section wrapped in the
`except Exception` handler that converts any raised error into a false
return with the error text recorded in the report. -/
def startOllamaServer (env : StartEnv) (wait : Bool) : StartResult :=
  if env.running0 then
    { ret := true,
      reports := [{ success := true, alreadyRunning := true, timestamp := env.now }],
      lockAcquired := false, spawned := [], cacheWrites := [] }
  else if env.candidates.isEmpty then
    { ret := false,
      reports := [{ success := false, errorMsg := some "binary_not_found",
                    timestamp := env.now }],
      lockAcquired := false, spawned := [], cacheWrites := [] }
  else
    match startLocked env wait with
    | Except.ok r => r
    | Except.error e =>
      { ret := false,
        reports := [{ success := false, errorMsg := some e, attempts := some [],
                      timestamp := env.now }],
        lockAcquired := false, spawned := [], cacheWrites := [] }

/-- Embedding of `get_last_startup_report` (ollama_manager.py lines 652-660):
prefer the in-memory report, fall back to the persisted one. -/
def getLastStartupReport (mem : Option Report) (disk : Option Report) : Option Report :=
  match mem with
  | some r => some r
  | none => disk

theorem runCandidates_success (wait : Bool) (now : Nat) :
    ∀ (l : List CandSpec) (acc : List Attempt) (sp : List String)
      (cw : List (String × Bool)),
      (runCandidates wait now acc sp cw l).report.success
        = (runCandidates wait now acc sp cw l).ret := by
  cases wait with
  | true =>
    intro l
    induction l with
    | nil => intro acc sp cw; rfl
    | cons c rest ih =>
      intro acc sp cw
      by_cases hp : c.probeOk = true
      · cases ho : c.outcome with
        | ready => simp [runCandidates, hp, ho]
        | exitedEarly rc st => simp [runCandidates, hp, ho]; exact ih _ _ _
        | hung => simp [runCandidates, hp, ho]; exact ih _ _ _
      · simp [runCandidates, hp]; exact ih _ _ _
  | false =>
    intro l
    induction l with
    | nil => intro acc sp cw; rfl
    | cons c rest ih =>
      intro acc sp cw
      by_cases hp : c.probeOk = true
      · simp [runCandidates, hp]
      · simp [runCandidates, hp]; exact ih _ _ _

theorem runCandidates_cache_health (now : Nat) :
    ∀ (l : List CandSpec) (acc : List Attempt) (sp : List String)
      (cw : List (String × Bool)),
      (∀ x ∈ cw, x.2 = true) →
      ∀ x ∈ (runCandidates true now acc sp cw l).cacheWrites, x.2 = true := by
  intro l
  induction l with
  | nil => intro acc sp cw hcw x hx; exact hcw x hx
  | cons c rest ih =>
    intro acc sp cw hcw x hx
    by_cases hp : c.probeOk = true
    · cases ho : c.outcome with
      | ready =>
        simp only [runCandidates, hp, if_true, ho] at hx
        rcases List.mem_append.mp hx with h | h
        · exact hcw x h
        · rcases List.mem_singleton.mp h with h'
          rw [h']
      | exitedEarly rc st =>
        simp only [runCandidates, hp, if_true, ho] at hx
        exact ih _ _ _ hcw x hx
      | hung =>
        simp only [runCandidates, hp, if_true, ho] at hx
        exact ih _ _ _ hcw x hx
    · simp only [runCandidates, hp] at hx
      exact ih _ _ _ hcw x hx

theorem startLocked_ok_shape (env : StartEnv) (wait : Bool) (r : StartResult)
    (h : startLocked env wait = Except.ok r) :
    ∃ rep, r.reports = [rep] ∧ rep.success = r.ret := by
  unfold startLocked at h
  by_cases hl : env.lockOk = true
  · rw [if_pos hl] at h
    by_cases hr : env.runningAfterLock = true
    · rw [if_pos hr] at h
      injection h with h'
      subst h'
      exact ⟨_, rfl, rfl⟩
    · rw [if_neg hr] at h
      injection h with h'
      subst h'
      exact ⟨(runCandidates wait env.now [] [] [] env.candidates).report, rfl,
        runCandidates_success wait env.now env.candidates [] [] []⟩
  · rw [if_neg hl] at h
    cases h

theorem startLocked_ok_cache_health (env : StartEnv) (r : StartResult)
    (h : startLocked env true = Except.ok r) :
    ∀ x ∈ r.cacheWrites, x.2 = true := by
  unfold startLocked at h
  by_cases hl : env.lockOk = true
  · rw [if_pos hl] at h
    by_cases hr : env.runningAfterLock = true
    · rw [if_pos hr] at h
      injection h with h'
      subst h'
      intro x hx
      simp at hx
    · rw [if_neg hr] at h
      injection h with h'
      subst h'
      exact runCandidates_cache_health env.now env.candidates [] [] []
        (by intro x hx; simp at hx)
  · rw [if_neg hl] at h
    cases h

/-- Claim C10: `start_ollama_server` never raises — the raised lock-timeout
error is caught and converted into a false return — and on every terminal
path exactly one startup report is written, its success flag matches the
returned boolean, and `get_last_startup_report` then returns it. -/
theorem c10_no_raise_and_report :
    ∀ (env : StartEnv) (wait : Bool),
      (startOllamaServer env wait).reports.length = 1
      ∧ (startOllamaServer env wait).reports.getLast?.map Report.success
          = some (startOllamaServer env wait).ret
      ∧ (∀ disk, getLastStartupReport (startOllamaServer env wait).reports.getLast? disk
          = (startOllamaServer env wait).reports.getLast?)
      ∧ (∀ e, env.running0 = false → env.candidates.isEmpty = false →
          startLocked env wait = Except.error e →
          (startOllamaServer env wait).ret = false
          ∧ (startOllamaServer env wait).reports.getLast?.bind Report.errorMsg = some e) := by
  intro env wait
  cases h0 : env.running0 with
  | true =>
    refine ⟨?_, ?_, ?_, ?_⟩ <;> simp [startOllamaServer, h0, getLastStartupReport]
  | false =>
    cases hemp : env.candidates.isEmpty with
    | true =>
      refine ⟨?_, ?_, ?_, ?_⟩ <;> simp [startOllamaServer, h0, hemp, getLastStartupReport]
    | false =>
      cases hs : startLocked env wait with
      | ok r =>
        obtain ⟨rep, hrep, hsucc⟩ := startLocked_ok_shape env wait r hs
        refine ⟨?_, ?_, ?_, ?_⟩
        · simp [startOllamaServer, h0, hemp, hs, hrep]
        · simp [startOllamaServer, h0, hemp, hs, hrep, hsucc]
        · intro disk
          simp [startOllamaServer, h0, hemp, hs, hrep, getLastStartupReport]
        · intro e _ _ he
          cases he
      | error e0 =>
        refine ⟨?_, ?_, ?_, ?_⟩
        · simp [startOllamaServer, h0, hemp, hs]
        · simp [startOllamaServer, h0, hemp, hs]
        · intro disk
          simp [startOllamaServer, h0, hemp, hs, getLastStartupReport]
        · intro e _ _ he
          injection he with h'
          subst h'
          constructor
          · simp [startOllamaServer, h0, hemp, hs]
          · simp [startOllamaServer, h0, hemp, hs]

/-- A single probe-passing candidate whose spawned server becomes healthy. -/
def candA : CandSpec :=
  { name := "/usr/local/bin/ollama", probeOk := true, outcome := SpawnOutcome.ready }

/-- Concrete environment for claim C1: not running, one candidate, lock
acquisition times out. -/
def envC1 : StartEnv :=
  { running0 := false, lockOk := false, runningAfterLock := false,
    candidates := [candA], now := 100 }

/-- Witness for claim C10 at `envC1`: the lock-timeout error raised inside
the locked section is observed by the caller as a false return whose report
carries the timeout message. -/
theorem c10_no_raise_witness :
    (startOllamaServer envC1 true).ret = false
    ∧ (startOllamaServer envC1 true).reports.getLast?.bind Report.errorMsg
        = some "Timed out acquiring Ollama startup lock" :=
  (c10_no_raise_and_report envC1 true).2.2.2
    "Timed out acquiring Ollama startup lock" rfl rfl rfl

/-- Claim C1 (amended): when another caller holds the startup lock past the
lock-acquisition timeout, the `TimeoutError` raised by `_with_startup_lock`
is caught by the `except Exception` handler of `start_ollama_server`, which
returns false and records the timeout message as the report's error; no
condition surfaces to the caller as a raised error. -/
theorem c1_lock_timeout_caught (env : StartEnv) (wait : Bool)
    (h0 : env.running0 = false) (hc : env.candidates.isEmpty = false)
    (hl : env.lockOk = false) :
    (startOllamaServer env wait).ret = false
    ∧ (startOllamaServer env wait).reports =
        [{ success := false,
           errorMsg := some "Timed out acquiring Ollama startup lock",
           attempts := some [], timestamp := env.now }]
    ∧ (startOllamaServer env wait).lockAcquired = false := by
  have hs : startLocked env wait = Except.error "Timed out acquiring Ollama startup lock" := by
    unfold startLocked
    rw [hl]
    rfl
  refine ⟨?_, ?_, ?_⟩ <;> simp [startOllamaServer, h0, hc, hs]

/-- Counterexample to claim C1 as stated: at `envC1` the lock times out, yet
`start_ollama_server` does not propagate the raised `TimeoutError` — it
returns false with the timeout message recorded in the report. -/
theorem c1_lock_timeout_counterexample :
    startLocked envC1 true = Except.error "Timed out acquiring Ollama startup lock"
    ∧ (startOllamaServer envC1 true).ret = false
    ∧ (startOllamaServer envC1 true).reports =
        [{ success := false,
           errorMsg := some "Timed out acquiring Ollama startup lock",
           attempts := some [], timestamp := 100 }] := by
  refine ⟨rfl, by decide, by decide⟩

/-- Witness for the amended claim C1 at the concrete environment `envC1`. -/
theorem c1_lock_timeout_witness :
    (startOllamaServer envC1 true).ret = false
    ∧ (startOllamaServer envC1 true).lockAcquired = false :=
  ⟨(c1_lock_timeout_caught envC1 true rfl rfl rfl).1,
   (c1_lock_timeout_caught envC1 true rfl rfl rfl).2.2⟩

/-- Claim C3 (amended): when the runtime is not already running and the
candidate list is empty, `start_ollama_server` returns false with the
report's error equal to "binary_not_found", without acquiring the startup
lock, without spawning, and without entering the per-candidate loop. -/
theorem c3_binary_not_found (env : StartEnv) (wait : Bool)
    (h0 : env.running0 = false) (hc : env.candidates = []) :
    startOllamaServer env wait =
      { ret := false,
        reports := [{ success := false, errorMsg := some "binary_not_found",
                      timestamp := env.now }],
        lockAcquired := false, spawned := [], cacheWrites := [] } := by
  simp [startOllamaServer, h0, hc]

/-- Concrete environment for claim C3: not running and zero candidates. -/
def envC3 : StartEnv :=
  { running0 := false, lockOk := true, runningAfterLock := false,
    candidates := [], now := 7 }

/-- Counterexample to claim C3 as stated: with zero candidates the call does
return false with error "binary_not_found", but the startup lock is never
acquired, contrary to the claim's "still acquires (and releases) the
startup lock before reporting". -/
theorem c3_no_lock_counterexample :
    (startOllamaServer envC3 true).lockAcquired = false
    ∧ (startOllamaServer envC3 true).ret = false
    ∧ (startOllamaServer envC3 true).reports.getLast?.bind Report.errorMsg
        = some "binary_not_found" := by
  refine ⟨by decide, by decide, by decide⟩

/-- Witness for the amended claim C3 at the concrete environment `envC3`. -/
theorem c3_binary_not_found_witness :
    startOllamaServer envC3 true =
      { ret := false,
        reports := [{ success := false, errorMsg := some "binary_not_found",
                      timestamp := 7 }],
        lockAcquired := false, spawned := [], cacheWrites := [] } :=
  c3_binary_not_found envC3 true rfl rfl

/-- Claim C4 (amended): in the `wait=true` path of `start_ollama_server`
every write to the selected-binary cache happens only after a health check
succeeded against the runtime started from that candidate; however the
`wait=false` path writes the cache right after spawning without health
confirmation, and `get_ollama_binary` writes it for a merely discovered
candidate without any health check. -/
theorem c4_cache_health_confirmed (env : StartEnv) (x : String × Bool)
    (hx : x ∈ (startOllamaServer env true).cacheWrites) : x.2 = true := by
  revert hx
  cases h0 : env.running0 with
  | true => simp [startOllamaServer, h0]
  | false =>
    cases hemp : env.candidates.isEmpty with
    | true => simp [startOllamaServer, h0, hemp]
    | false =>
      cases hs : startLocked env true with
      | ok r =>
        intro hx
        simp only [startOllamaServer, h0, hemp, hs] at hx
        exact startLocked_ok_cache_health env r hs x hx
      | error e =>
        simp [startOllamaServer, h0, hemp, hs]

/-- Concrete environment for claim C4: not running, lock free, one healthy
candidate. -/
def envC4 : StartEnv :=
  { running0 := false, lockOk := true, runningAfterLock := false,
    candidates := [candA], now := 3 }

/-- Concrete discovery environment for claim C4: one existing executable
binary, nothing cached, no health information involved at all. -/
def envC4g : LocEnv :=
  { overrideBinary := none
    bundledDir := none
    whichOut := none
    pathExists := fun p => p == "/opt/homebrew/bin/ollama"
    pathExec := fun p => p == "/opt/homebrew/bin/ollama"
    preferSystemEnv := none
    selectedCache := none
    reportSelected := none }

/-- Counterexample to claim C4 as stated: the `wait=false` path of
`start_ollama_server` writes the cache for a candidate that was spawned but
never health-confirmed, and `get_ollama_binary` writes the cache for a
candidate that was merely discovered. -/
theorem c4_cache_counterexample :
    (startOllamaServer envC4 false).cacheWrites = [("/usr/local/bin/ollama", false)]
    ∧ getOllamaBinary envC4g none
        = (some "/opt/homebrew/bin/ollama", some "/opt/homebrew/bin/ollama") := by
  refine ⟨by decide, by decide⟩

/-- Witness for the amended claim C4 at the concrete environment `envC4`:
the one cache write of the `wait=true` run is health-confirmed. -/
theorem c4_cache_health_witness :
    (("/usr/local/bin/ollama", true) ∈ (startOllamaServer envC4 true).cacheWrites)
    ∧ (("/usr/local/bin/ollama", true) : String × Bool).2 = true :=
  ⟨by decide, c4_cache_health_confirmed envC4 ("/usr/local/bin/ollama", true) (by decide)⟩

/-- Program counter of one caller thread executing `start_ollama_server`
with `wait=true` on the success path, abstracted to its lock-relevant
actions: the fast-path health check, the blocking lock acquisition, the
recheck after acquiring the lock, the spawn-and-wait-until-healthy section
(the health check succeeds before the lock is released), and completion. -/
inductive TPC where
  | entry : TPC
  | tryLock : TPC
  | recheck : TPC
  | spawning : TPC
  | done : TPC
deriving DecidableEq, Repr

/-- Shared state of two threads concurrently inside `start_ollama_server`:
whether the process-local startup lock is held, whether a health check
against the runtime reports running (monotone once a spawned server is
ready), the total number of `subprocess.Popen` spawns so far, and each
thread's program counter. -/
structure SysSt where
  lock : Bool
  running : Bool
  spawns : Nat
  pc1 : TPC
  pc2 : TPC
deriving DecidableEq, Repr

/-- Interleaving semantics: at each step one thread performs its next atomic
action of `start_ollama_server` (ollama_manager.py lines 381, 404, 406,
430-465).  Lock acquisition is enabled only while the lock is free, which
models `_startup_lock.acquire` blocking; the spawn step sets `running`
before releasing the lock because with `wait=true` the caller returns — and
the `with` block releases the lock — only once `is_ollama_running()` is
true. -/
inductive Step : SysSt → SysSt → Prop
  | fast1 (s : SysSt) : s.pc1 = TPC.entry → s.running = true →
      Step s { s with pc1 := TPC.done }
  | slow1 (s : SysSt) : s.pc1 = TPC.entry → s.running = false →
      Step s { s with pc1 := TPC.tryLock }
  | lock1 (s : SysSt) : s.pc1 = TPC.tryLock → s.lock = false →
      Step s { s with pc1 := TPC.recheck, lock := true }
  | seen1 (s : SysSt) : s.pc1 = TPC.recheck → s.running = true →
      Step s { s with pc1 := TPC.done, lock := false }
  | miss1 (s : SysSt) : s.pc1 = TPC.recheck → s.running = false →
      Step s { s with pc1 := TPC.spawning }
  | spawn1 (s : SysSt) : s.pc1 = TPC.spawning →
      Step s { s with pc1 := TPC.done, lock := false, running := true,
                      spawns := s.spawns + 1 }
  | fast2 (s : SysSt) : s.pc2 = TPC.entry → s.running = true →
      Step s { s with pc2 := TPC.done }
  | slow2 (s : SysSt) : s.pc2 = TPC.entry → s.running = false →
      Step s { s with pc2 := TPC.tryLock }
  | lock2 (s : SysSt) : s.pc2 = TPC.tryLock → s.lock = false →
      Step s { s with pc2 := TPC.recheck, lock := true }
  | seen2 (s : SysSt) : s.pc2 = TPC.recheck → s.running = true →
      Step s { s with pc2 := TPC.done, lock := false }
  | miss2 (s : SysSt) : s.pc2 = TPC.recheck → s.running = false →
      Step s { s with pc2 := TPC.spawning }
  | spawn2 (s : SysSt) : s.pc2 = TPC.spawning →
      Step s { s with pc2 := TPC.done, lock := false, running := true,
                      spawns := s.spawns + 1 }

/-- Initial state: lock free, runtime not yet running, no spawns, both
callers about to invoke `start_ollama_server`. -/
def initSt : SysSt :=
  { lock := false, running := false, spawns := 0, pc1 := TPC.entry, pc2 := TPC.entry }

/-- States reachable from `initSt` by interleaved steps of the two callers. -/
def Reach (s : SysSt) : Prop :=
  Relation.ReflTransGen Step initSt s

/-- A thread is inside the lock-protected critical section. -/
def inCrit (pc : TPC) : Bool :=
  match pc with
  | TPC.recheck => true
  | TPC.spawning => true
  | _ => false

/-- Inductive invariant of the two-caller system: spawns track the running
flag, the lock is held exactly while some thread is in the critical section,
mutual exclusion holds, a thread about to spawn saw the runtime down, and a
finished thread saw it up. -/
def SpawnInv (s : SysSt) : Prop :=
  (s.running = false → s.spawns = 0)
  ∧ (s.running = true → s.spawns = 1)
  ∧ s.lock = (inCrit s.pc1 || inCrit s.pc2)
  ∧ ¬(inCrit s.pc1 = true ∧ inCrit s.pc2 = true)
  ∧ (s.pc1 = TPC.spawning → s.running = false)
  ∧ (s.pc2 = TPC.spawning → s.running = false)
  ∧ (s.pc1 = TPC.done → s.running = true)
  ∧ (s.pc2 = TPC.done → s.running = true)

theorem spawnInv_init : SpawnInv initSt := by
  refine ⟨?_, ?_, ?_, ?_, ?_, ?_, ?_, ?_⟩ <;> simp [initSt, inCrit]

theorem spawnInv_step (s s' : SysSt) (hstep : Step s s') (hinv : SpawnInv s) :
    SpawnInv s' := by
  obtain ⟨h01, h11, hlk, hmx, hs1, hs2, hd1, hd2⟩ := hinv
  cases hstep with
  | fast1 hpc hrun =>
    refine ⟨?_, ?_, ?_, ?_, ?_, ?_, ?_, ?_⟩ <;>
      simp_all [inCrit, hpc, hrun]
  | slow1 hpc hrun =>
    refine ⟨?_, ?_, ?_, ?_, ?_, ?_, ?_, ?_⟩ <;>
      simp_all [inCrit, hpc, hrun]
  | lock1 hpc hlock =>
    refine ⟨?_, ?_, ?_, ?_, ?_, ?_, ?_, ?_⟩ <;>
      simp_all [inCrit, hpc, hlock]
  | seen1 hpc hrun =>
    refine ⟨?_, ?_, ?_, ?_, ?_, ?_, ?_, ?_⟩ <;>
      simp_all [inCrit, hpc, hrun]
  | miss1 hpc hrun =>
    refine ⟨?_, ?_, ?_, ?_, ?_, ?_, ?_, ?_⟩ <;>
      simp_all [inCrit, hpc, hrun]
  | spawn1 hpc =>
    refine ⟨?_, ?_, ?_, ?_, ?_, ?_, ?_, ?_⟩ <;>
      simp_all [inCrit, hpc]
    intro h
    rw [h] at hmx
    simp at hmx
  | fast2 hpc hrun =>
    refine ⟨?_, ?_, ?_, ?_, ?_, ?_, ?_, ?_⟩ <;>
      simp_all [inCrit, hpc, hrun]
  | slow2 hpc hrun =>
    refine ⟨?_, ?_, ?_, ?_, ?_, ?_, ?_, ?_⟩ <;>
      simp_all [inCrit, hpc, hrun]
  | lock2 hpc hlock =>
    refine ⟨?_, ?_, ?_, ?_, ?_, ?_, ?_, ?_⟩ <;>
      simp_all [inCrit, hpc, hlock]
  | seen2 hpc hrun =>
    refine ⟨?_, ?_, ?_, ?_, ?_, ?_, ?_, ?_⟩ <;>
      simp_all [inCrit, hpc, hrun]
  | miss2 hpc hrun =>
    refine ⟨?_, ?_, ?_, ?_, ?_, ?_, ?_, ?_⟩ <;>
      simp_all [inCrit, hpc, hrun]
  | spawn2 hpc =>
    refine ⟨?_, ?_, ?_, ?_, ?_, ?_, ?_, ?_⟩ <;>
      simp_all [inCrit, hpc]
    intro h
    rw [h] at hmx
    simp at hmx

theorem spawnInv_reach (s : SysSt) (h : Reach s) : SpawnInv s := by
  induction h with
  | refl => exact spawnInv_init
  | tail _ hstep ih => exact spawnInv_step _ _ hstep ih

/-- Claim C5: if two callers invoke `start_ollama_server` concurrently in
one process while the runtime is not yet running, then in every reachable
state in which both callers have completed exactly one server process has
been spawned in total — the lock serializes the spawn section and the
health recheck after lock acquisition stops the second caller from
spawning. -/
theorem c5_single_spawn (s : SysSt) (h : Reach s)
    (h1 : s.pc1 = TPC.done) (_h2 : s.pc2 = TPC.done) : s.spawns = 1 := by
  obtain ⟨_, h11, _, _, _, _, hd1, _⟩ := spawnInv_reach s h
  exact h11 (hd1 h1)

/-- Concrete interleaving reaching completion of both callers. -/
def traceS1 : SysSt :=
  { lock := false, running := false, spawns := 0, pc1 := TPC.tryLock, pc2 := TPC.entry }

def traceS2 : SysSt :=
  { lock := true, running := false, spawns := 0, pc1 := TPC.recheck, pc2 := TPC.entry }

def traceS3 : SysSt :=
  { lock := true, running := false, spawns := 0, pc1 := TPC.spawning, pc2 := TPC.entry }

def traceS4 : SysSt :=
  { lock := false, running := true, spawns := 1, pc1 := TPC.done, pc2 := TPC.entry }

def traceS5 : SysSt :=
  { lock := false, running := true, spawns := 1, pc1 := TPC.done, pc2 := TPC.done }

/-- Witness for claim C5: a concrete interleaving in which the first caller
spawns the server and the second caller's fast-path check sees it running;
the theorem yields that exactly one spawn happened. -/
theorem c5_single_spawn_witness : traceS5.spawns = 1 := by
  have r1 : Reach traceS1 := Relation.ReflTransGen.single (Step.slow1 initSt rfl rfl)
  have r2 : Reach traceS2 := r1.tail (Step.lock1 traceS1 rfl rfl)
  have r3 : Reach traceS3 := r2.tail (Step.miss1 traceS2 rfl rfl)
  have r4 : Reach traceS4 := r3.tail (Step.spawn1 traceS3 rfl)
  have r5 : Reach traceS5 := r4.tail (Step.fast2 traceS4 rfl rfl)
  exact c5_single_spawn traceS5 r5 rfl rfl

end OllamaManager
